import Mathlib

/-!
Shallow embedding of the client-side recommendation-scoring logic of the
multi-model-endpoint notebook
(`src/multi-model-endpoint/multiple_recommendation_models_endpoint.ipynb`):
the functions `get_recommendations_for_user` (movie variant) and
`get_music_recommendations_for_user` (music variant).

Modelling decisions:
* A Python string is a sequence of code points, modelled as `Str := List Char`.
  `s.split(',')`, `','.join(...)` and the lexicographic code-point
  comparison used by `sorted` are given as structurally recursive
  functions (`pySplit`, `pyJoin`, `lexLt`) so that every concrete run can
  be evaluated by the kernel.
* A candidate file is the list of lines returned by `f.readlines()`
  (`contents : List Str`).
* The inference endpoint (`runtime_client.invoke_endpoint` followed by
  reading and decoding the body) is a parameter `oracle : Str → Str`
  mapping the CSV payload to the raw prediction text; the endpoint name,
  content type and target model are fixed arguments that do not influence
  the client-side data flow, so they are not modelled.
* Python exceptions (list `pop` / indexing on a too-short list, `int()` on
  a non-numeric string, `.values[0]` on an empty selection, reading the
  loop variable `user` when the loop body never ran) abort the whole
  routine; this is modelled by `Option`, with `none` for an aborted run.
* Python's `sorted(key=..., reverse=True)` is a stable descending sort; it
  is modelled by `List.insertionSort` (stable) with the non-strict flipped
  comparison on the raw score strings.
* The music metadata key type is `float` in the source (`float(rec[0])`
  looked up in the `short_song_id` column). IEEE-754 parsing is not
  reproduced; the music lookup is parameterised by an arbitrary key type
  `K` and a conversion `pyFloat : Str → Option K` (`none` models a
  `ValueError`), so theorems about the music resolution cover the actual
  float conversion as an instance. The movie key conversion `int(rec[0])`
  is modelled concretely by `pyInt`.
-/

namespace MME

/-- A Python string: its sequence of code points. -/
abbrev Str : Type := List Char

/-- Python `s.split(sep)` for a one-character separator: split at every
occurrence, keeping empty fields; the empty string yields `[""]`. -/
def pySplit (sep : Char) : Str → List Str
  | [] => [[]]
  | c :: rest =>
    let r := pySplit sep rest
    if c = sep then [] :: r
    else
      match r with
      | [] => [[c]]
      | f :: fs => (c :: f) :: fs

/-- Python `sep.join(fields)` for a one-character separator. -/
def pyJoin (sep : Char) : List Str → Str
  | [] => []
  | [f] => f
  | f :: fs => f ++ sep :: pyJoin sep fs

/-- Python's strict lexicographic string comparison `a < b`: compare code
points position by position; a proper prefix is smaller. -/
def lexLt : Str → Str → Bool
  | [], [] => false
  | [], _ :: _ => true
  | _ :: _, [] => false
  | a :: as, b :: bs => if a < b then true else if b < a then false else lexLt as bs

/-- Python `int(s)` on the decimal strings that occur here: an optional
sign followed by at least one digit; anything else raises `ValueError`
(modelled as `none`). -/
def readDigits : Nat → List Char → Option Nat
  | acc, [] => some acc
  | acc, c :: cs =>
    if c.isDigit then readDigits (acc * 10 + (c.toNat - 48)) cs else none

/-- Python `int(s)`: optional sign, then a nonempty run of digits. -/
def pyInt : Str → Option Int
  | [] => none
  | c :: cs =>
    if c = '-' then
      match cs with
      | [] => none
      | _ => (readDigits 0 cs).map (fun n => -(n : Int))
    else if c = '+' then
      match cs with
      | [] => none
      | _ => (readDigits 0 cs).map (fun n => (n : Int))
    else (readDigits 0 (c :: cs)).map (fun n => (n : Int))

/-- One parsed candidate row: the Python locals `user = split_data[0]`,
`item = split_data[1]`, and `split_data` itself after the leading label
field(s) have been popped (this remaining list is what the payload is
rebuilt from). -/
structure ParsedRow where
  user : Str
  item : Str
  fields : List Str
deriving DecidableEq

/-- Movie-variant row parsing: `line.split(',')`, two `pop(0)` calls
removing the two leading fields, then `split_data[0]` and `split_data[1]`.
A line with fewer than four comma-separated fields raises `IndexError`
(modelled as `none`). -/
def parseMovieLine (line : Str) : Option ParsedRow :=
  match pySplit ',' line with
  | _lbl1 :: _lbl2 :: user :: item :: rest => some ⟨user, item, user :: item :: rest⟩
  | _ => none

/-- Music-variant row parsing: `line.split(',')`, one `pop(0)` call
removing the leading field, then `split_data[0]` and `split_data[1]`.
A line with fewer than three comma-separated fields raises `IndexError`
(modelled as `none`). -/
def parseMusicLine (line : Str) : Option ParsedRow :=
  match pySplit ',' line with
  | _lbl :: user :: item :: rest => some ⟨user, item, user :: item :: rest⟩
  | _ => none

/-- The payload sent to the endpoint for a matching row:
`','.join(split_data)` after the label pops. -/
def payloadOf (row : ParsedRow) : Str :=
  pyJoin ',' row.fields

/-- State of the scoring loop: the payloads of the inference requests
issued so far (in order), the accumulated `predictions` list of
`[item, prediction]` pairs (in order), and the current value of the Python
loop-local variable `user` (`none` while it is still unassigned). -/
structure LoopState where
  requests : List Str
  predictions : List (Str × Str)
  lastUser : Option Str
deriving DecidableEq

/-- The state before the first loop iteration: `predictions = []`, no
request issued, `user` unassigned. -/
def initState : LoopState := ⟨[], [], none⟩

/-- One iteration of the scoring loop body on line `contents[i]`: parse the
row, record the loop variable `user`, and if `user == predictions_for_user`
issue the inference request and append `[item, prediction]`. -/
def stepRow (parse : Str → Option ParsedRow) (oracle : Str → Str)
    (uid : Str) (st : LoopState) (line : Str) : Option LoopState :=
  match parse line with
  | none => none
  | some row =>
    if row.user = uid then
      some ⟨st.requests ++ [payloadOf row],
            st.predictions ++ [(row.item, oracle (payloadOf row))],
            some row.user⟩
    else
      some ⟨st.requests, st.predictions, some row.user⟩

/-- The scoring loop over a list of lines, left to right, aborting the
whole run on the first raised exception. -/
def scoreLoop (parse : Str → Option ParsedRow) (oracle : Str → Str)
    (uid : Str) : LoopState → List Str → Option LoopState
  | st, [] => some st
  | st, line :: rest =>
    match stepRow parse oracle uid st line with
    | none => none
    | some st1 => scoreLoop parse oracle uid st1 rest

/-- `for i in range(0, len(contents) - 1): line = contents[i]` visits
exactly the first `len(contents) - 1` lines: every line except the last. -/
def examinedLines (contents : List Str) : List Str :=
  contents.take (contents.length - 1)

/-- The scoring phase of `get_recommendations_for_user` (movie variant). -/
def movieScore (oracle : Str → Str) (uid : Str)
    (contents : List Str) : Option LoopState :=
  scoreLoop parseMovieLine oracle uid initState (examinedLines contents)

/-- The scoring phase of `get_music_recommendations_for_user`. -/
def musicScore (oracle : Str → Str) (uid : Str)
    (contents : List Str) : Option LoopState :=
  scoreLoop parseMusicLine oracle uid initState (examinedLines contents)

/-- The comparison used by
`sorted(predictions, key = lambda x: x[1], reverse=True)`: a stable
descending sort places `a` no later than `b` exactly when
`key(a) < key(b)` is false in Python's lexicographic code-point string
order. -/
def pyDescRel (a b : Str × Str) : Prop :=
  lexLt a.2 b.2 = false

instance : DecidableRel pyDescRel :=
  fun a b => instDecidableEqBool (lexLt a.2 b.2) false

/-- `sorted(predictions, key = lambda x: x[1], reverse=True)`: stable sort,
descending in the raw score text (Python's `sorted` is stable, and so is
insertion sort). -/
def pySortDesc (predictions : List (Str × Str)) : List (Str × Str) :=
  List.insertionSort pyDescRel predictions

/-- `recommendations = sorted_predcitions[0:9]`: the first nine sorted
entries (the comment in the source says "top 10" but the slice takes 9). -/
def displaySelect (predictions : List (Str × Str)) : List (Str × Str) :=
  (pySortDesc predictions).take 9

/-- `df.loc[df[keyCol] == key][titleCol].values[0]`: the title field of the
first metadata row whose key column equals `key`; `none` models the
`IndexError` raised by `.values[0]` when no row matches. -/
def metadataLookup {K : Type} [DecidableEq K] (table : List (K × Str))
    (key : K) : Option Str :=
  ((table.filter (fun row => row.1 = key)).map (fun row => row.2)).head?

/-- The display loop `for rec in recommendations:` — convert `rec[0]` with
`conv` (movie: `int`, music: `float`; `none` models `ValueError`), look the
key up in the metadata table, collect the printed titles in order. Any
failure aborts the run. -/
def resolveTitles {K : Type} [DecidableEq K] (conv : Str → Option K)
    (table : List (K × Str)) : List (Str × Str) → Option (List Str)
  | [] => some []
  | rec :: rest =>
    match conv rec.1 with
    | none => none
    | some key =>
      match metadataLookup table key with
      | none => none
      | some title =>
        match resolveTitles conv table rest with
        | none => none
        | some titles => some (title :: titles)

/-- What the `if show_predictions:` block prints: the user id in the
`"Recommended ... for user with id : "` header, the selected
`(item, prediction)` entries in rank order, and the resolved titles in the
same order. -/
structure DisplayOutput where
  headerUser : Str
  recommendations : List (Str × Str)
  titles : List Str
deriving DecidableEq

/-- The display block of the movie variant: the header prints
`predictions_for_user` (the requested id), keys are converted with
`int(rec[0])` and looked up in the `movie id` column. -/
def movieDisplay (movie_df : List (Int × Str)) (uid : Str)
    (st : LoopState) : Option DisplayOutput :=
  let recs := displaySelect st.predictions
  match resolveTitles pyInt movie_df recs with
  | none => none
  | some titles => some ⟨uid, recs, titles⟩

/-- The display block of the music variant: the header prints the loop
variable `user` (a `NameError`, modelled as `none`, if the loop body never
assigned it), keys are converted with `float(rec[0])` — modelled by the
parameter `pyFloat` — and looked up in the `short_song_id` column. -/
def musicDisplay {K : Type} [DecidableEq K] (pyFloat : Str → Option K)
    (song_df : List (K × Str)) (st : LoopState) : Option DisplayOutput :=
  match st.lastUser with
  | none => none
  | some u =>
    let recs := displaySelect st.predictions
    match resolveTitles pyFloat song_df recs with
    | none => none
    | some titles => some ⟨u, recs, titles⟩

/-- `get_recommendations_for_user(model_name, user_id, show_predictions)`
(movie variant), returning the final loop state and, when
`show_predictions` is true, the display output. `uid` is
`predictions_for_user = str(user_id)`. -/
def get_recommendations_for_user (oracle : Str → Str)
    (movie_df : List (Int × Str)) (uid : Str)
    (show_predictions : Bool) (contents : List Str) :
    Option (LoopState × Option DisplayOutput) :=
  match movieScore oracle uid contents with
  | none => none
  | some st =>
    if show_predictions then
      match movieDisplay movie_df uid st with
      | none => none
      | some disp => some (st, some disp)
    else
      some (st, none)

/-- `get_music_recommendations_for_user(model_name, user_id, show_predictions)`,
returning the final loop state and, when `show_predictions` is true, the
display output. -/
def get_music_recommendations_for_user {K : Type} [DecidableEq K]
    (oracle : Str → Str) (pyFloat : Str → Option K)
    (song_df : List (K × Str)) (uid : Str)
    (show_predictions : Bool) (contents : List Str) :
    Option (LoopState × Option DisplayOutput) :=
  match musicScore oracle uid contents with
  | none => none
  | some st =>
    if show_predictions then
      match musicDisplay pyFloat song_df st with
      | none => none
      | some disp => some (st, some disp)
    else
      some (st, none)

/-! Concrete scenarios used by counterexamples and witnesses. `oracleC1`
plays the role of fixed inference responses for the end-to-end scenario of
the spec: item 1 scores "0.9", item 2 scores "0.5", item 3 scores "0.7". -/

/-- Fixed inference responses for the end-to-end scenario. -/
def oracleC1 : Str → Str := fun payload =>
  if payload = ("100,1").toList then ("0.9").toList
  else if payload = ("100,2").toList then ("0.5").toList
  else if payload = ("100,3").toList then ("0.7").toList
  else ("0.0").toList

/-- A candidate file consisting of exactly the 3 rows for user "100" with
item ids "1", "2", "3" (movie format: rating, timestamp, user, item). -/
def contentsC1 : List Str :=
  [("5,1,100,1").toList, ("4,1,100,2").toList, ("3,1,100,3").toList]

/-- Movie metadata: ids 1, 2, 3 titled "A", "B", "C". -/
def movieDfC1 : List (Int × Str) :=
  [(1, ("A").toList), (2, ("B").toList), (3, ("C").toList)]

/-- The ranked order the end-to-end scenario expects: item "1" ("0.9"),
then "3" ("0.7"), then "2" ("0.5"). -/
def claimedC1 : List (Str × Str) :=
  [(("1").toList, ("0.9").toList), (("3").toList, ("0.7").toList),
   (("2").toList, ("0.5").toList)]

/-- What a 3-line file actually yields: only the first two rows scored. -/
def twoC1 : List (Str × Str) :=
  [(("1").toList, ("0.9").toList), (("2").toList, ("0.5").toList)]

/-- The loop state after scoring `contentsC1` (two rows examined). -/
def stC1 : LoopState :=
  ⟨[("100,1").toList, ("100,2").toList], twoC1, some (("100").toList)⟩

/-- The first candidate line of `contentsC1`. -/
def lineC1 : Str := ("5,1,100,1").toList

/-- The parsed form of `lineC1`. -/
def rowC1 : ParsedRow :=
  ⟨("100").toList, ("1").toList, [("100").toList, ("1").toList]⟩

/-- A constant-response oracle. -/
def oracleC9 : Str → Str := fun _ => ("0.5").toList

/-- A music candidate file whose last examined row belongs to user "200",
different from the requested user "100" (music format: rating, user, item). -/
def contentsC9 : List Str :=
  [("5,100,1").toList, ("5,200,2").toList, ("x").toList]

/-- Song metadata with a single entry for key 1. -/
def songDfC9 : List (Int × Str) := [(1, ("SongA").toList)]

/-- The loop state after scoring `contentsC9` for user "100": only item
"1" was scored, and the loop variable `user` ends as "200". -/
def stC9 : LoopState :=
  ⟨[("100,1").toList], [(("1").toList, ("0.5").toList)], some (("200").toList)⟩

/-- The display output of the music run on `contentsC9`: the header shows
"200", not the requested "100". -/
def dispC9 : DisplayOutput :=
  ⟨("200").toList, [(("1").toList, ("0.5").toList)], [("SongA").toList]⟩

/-- A music candidate file whose only examined row has user field "0100":
numerically equal to 100 but not string-equal to "100". -/
def contentsC5 : List Str := [("5,0100,7").toList, ("x").toList]

/-! Helper lemmas. -/

theorem lexLt_irrefl (a : Str) : lexLt a a = false := by
  induction a with
  | nil => rfl
  | cons c cs ih => simp [lexLt, ih]

theorem lexLt_asymm (a b : Str) (h : lexLt a b = true) : lexLt b a = false := by
  induction a generalizing b with
  | nil =>
    cases b with
    | nil => simp [lexLt] at h
    | cons y ys => simp [lexLt]
  | cons x xs ih =>
    cases b with
    | nil => simp [lexLt] at h
    | cons y ys =>
      simp only [lexLt] at h ⊢
      split at h
      · next hxy => simp [not_lt_of_lt hxy, hxy]
      · split at h
        · exact absurd h (by simp)
        · next h1 h2 =>
          simp only [h2, if_neg h1, if_neg h2]
          exact ih ys h

theorem lexLt_not_trans (a b c : Str) (hab : lexLt a b = false)
    (hbc : lexLt b c = false) : lexLt a c = false := by
  induction a generalizing b c with
  | nil =>
    cases b with
    | nil =>
      cases c with
      | nil => rfl
      | cons z zs => simp [lexLt] at hbc
    | cons y ys => simp [lexLt] at hab
  | cons x xs ih =>
    cases b with
    | nil =>
      cases c with
      | nil => rfl
      | cons z zs => simp [lexLt] at hbc
    | cons y ys =>
      cases c with
      | nil => rfl
      | cons z zs =>
        simp only [lexLt] at hab hbc ⊢
        split at hab
        · exact absurd hab (by simp)
        · split at hbc
          · exact absurd hbc (by simp)
          · next hxy hyz =>
            split at hab
            · next hyx =>
              split at hbc
              · next hzy =>
                have hzx : z < x := lt_trans hzy hyx
                simp [not_lt_of_lt hzx, hzx]
              · next hzy =>
                have hyz' : y = z := le_antisymm (not_lt.mp hzy) (not_lt.mp hyz)
                subst hyz'
                simp [not_lt_of_lt hyx, hyx]
            · next hyx =>
              have hxy' : x = y := le_antisymm (not_lt.mp hyx) (not_lt.mp hxy)
              subst hxy'
              split at hbc
              · next hzx => simp [not_lt_of_lt hzx, hzx]
              · next hzx =>
                have hxz : x = z := le_antisymm (not_lt.mp hzx) (not_lt.mp hyz)
                subst hxz
                simp only [lt_irrefl, if_neg (lt_irrefl x)]
                exact ih ys zs hab hbc

theorem pyDescRel_total (a b : Str × Str) : pyDescRel a b ∨ pyDescRel b a := by
  unfold pyDescRel
  cases h : lexLt a.2 b.2 with
  | false => exact Or.inl rfl
  | true => exact Or.inr (lexLt_asymm _ _ h)

theorem pyDescRel_trans (a b c : Str × Str) (hab : pyDescRel a b)
    (hbc : pyDescRel b c) : pyDescRel a c :=
  lexLt_not_trans _ _ _ hab hbc

theorem examinedLines_concat (cs : List Str) (l : Str) :
    examinedLines (cs ++ [l]) = cs := by
  unfold examinedLines
  rw [List.length_append]
  simp only [List.length_cons, List.length_nil, Nat.add_sub_cancel]
  exact List.take_left cs [l]

theorem scoreLoop_some (parse : Str → Option ParsedRow) (oracle : Str → Str)
    (uid : Str) (lines : List Str) :
    ∀ (st st' : LoopState), scoreLoop parse oracle uid st lines = some st' →
      (∀ l ∈ lines, (parse l).isSome) ∧
      st'.requests = st.requests ++
        (((lines.filterMap parse).filter (fun r => decide (r.user = uid))).map payloadOf) ∧
      st'.predictions = st.predictions ++
        (((lines.filterMap parse).filter (fun r => decide (r.user = uid))).map
          (fun r => (r.item, oracle (payloadOf r)))) := by
  induction lines with
  | nil =>
    intro st st' h
    simp only [scoreLoop] at h
    injection h with h1
    subst h1
    simp
  | cons line rest ih =>
    intro st st' h
    simp only [scoreLoop] at h
    cases hstep : stepRow parse oracle uid st line with
    | none => rw [hstep] at h; cases h
    | some st1 =>
      rw [hstep] at h
      obtain ⟨hall, hreq, hpred⟩ := ih st1 st' h
      cases hp : parse line with
      | none =>
        simp only [stepRow, hp] at hstep
        exact Option.noConfusion hstep
      | some row =>
        simp only [stepRow, hp] at hstep
        by_cases hu : row.user = uid
        · rw [if_pos hu] at hstep
          injection hstep with h2
          subst h2
          refine ⟨?_, ?_, ?_⟩
          · intro l hl
            rcases List.mem_cons.mp hl with hl | hl
            · subst hl; simp [hp]
            · exact hall l hl
          · rw [hreq]
            simp [List.filterMap_cons, hp, List.filter_cons, hu, List.append_assoc]
          · rw [hpred]
            simp [List.filterMap_cons, hp, List.filter_cons, hu, List.append_assoc]
        · rw [if_neg hu] at hstep
          injection hstep with h2
          subst h2
          refine ⟨?_, ?_, ?_⟩
          · intro l hl
            rcases List.mem_cons.mp hl with hl | hl
            · subst hl; simp [hp]
            · exact hall l hl
          · rw [hreq]
            simp [List.filterMap_cons, hp, List.filter_cons, hu]
          · rw [hpred]
            simp [List.filterMap_cons, hp, List.filter_cons, hu]

theorem scoreLoop_lastUser (parse : Str → Option ParsedRow) (oracle : Str → Str)
    (uid : Str) (lines : List Str) :
    ∀ (st st' : LoopState), lines ≠ [] →
      scoreLoop parse oracle uid st lines = some st' →
      ∃ lastLine row, lines.getLast? = some lastLine ∧ parse lastLine = some row ∧
        st'.lastUser = some row.user := by
  induction lines with
  | nil => intro st st' hne _; exact absurd rfl hne
  | cons line rest ih =>
    intro st st' _ h
    simp only [scoreLoop] at h
    cases hstep : stepRow parse oracle uid st line with
    | none => rw [hstep] at h; cases h
    | some st1 =>
      rw [hstep] at h
      cases rest with
      | nil =>
        simp only [scoreLoop] at h
        injection h with h1
        subst h1
        cases hp : parse line with
        | none =>
          simp only [stepRow, hp] at hstep
          exact Option.noConfusion hstep
        | some row =>
          simp only [stepRow, hp] at hstep
          refine ⟨line, row, List.getLast?_singleton line, hp, ?_⟩
          by_cases hu : row.user = uid
          · rw [if_pos hu] at hstep
            injection hstep with h2
            rw [← h2]
          · rw [if_neg hu] at hstep
            injection hstep with h2
            rw [← h2]
      | cons l2 r2 =>
        obtain ⟨ll, row, hgl, hp, hu⟩ := ih st1 st' (by simp) h
        exact ⟨ll, row, by rw [List.getLast?_cons_cons]; exact hgl, hp, hu⟩

theorem parseMovieLine_fields (line : Str) (r : ParsedRow)
    (h : parseMovieLine line = some r) :
    r.fields = (pySplit ',' line).drop 2 := by
  unfold parseMovieLine at h
  cases hs : pySplit ',' line with
  | nil => rw [hs] at h; exact Option.noConfusion h
  | cons a t1 =>
    cases t1 with
    | nil => rw [hs] at h; exact Option.noConfusion h
    | cons b t2 =>
      cases t2 with
      | nil => rw [hs] at h; exact Option.noConfusion h
      | cons u t3 =>
        cases t3 with
        | nil => rw [hs] at h; exact Option.noConfusion h
        | cons i rest =>
          rw [hs] at h
          injection h with h1
          subst h1
          rfl

theorem parseMusicLine_fields (line : Str) (r : ParsedRow)
    (h : parseMusicLine line = some r) :
    r.fields = (pySplit ',' line).drop 1 := by
  unfold parseMusicLine at h
  cases hs : pySplit ',' line with
  | nil => rw [hs] at h; exact Option.noConfusion h
  | cons a t1 =>
    cases t1 with
    | nil => rw [hs] at h; exact Option.noConfusion h
    | cons u t2 =>
      cases t2 with
      | nil => rw [hs] at h; exact Option.noConfusion h
      | cons i rest =>
        rw [hs] at h
        injection h with h1
        subst h1
        rfl

/-! Claim theorems. -/

/-- C2: for every candidate file with at least one line (written
`cs ++ [lastLine]`), the last line is never scored: the whole scoring
phase — requests issued and `(item, score)` pairs accumulated — equals the
loop run over the preceding lines only, in both the movie and the music
routines, whatever the last line is. -/
theorem claim_C2 (oracle : Str → Str) (uid : Str) (cs : List Str) (lastLine : Str) :
    movieScore oracle uid (cs ++ [lastLine]) =
      scoreLoop parseMovieLine oracle uid initState cs ∧
    musicScore oracle uid (cs ++ [lastLine]) =
      scoreLoop parseMusicLine oracle uid initState cs := by
  unfold movieScore musicScore
  rw [examinedLines_concat]
  exact ⟨rfl, rfl⟩

/-- C3: the display stage's sort is a permutation of the accumulated pairs
that is pairwise descending in the raw score text under the lexicographic
code-point string order (`pyDescRel`), not numeric order; in particular
the scores "9.0", "10.0", "2.5" sort as "9.0", "2.5", "10.0". -/
theorem claim_C3 :
    (∀ preds : List (Str × Str),
        (pySortDesc preds).Perm preds ∧ (pySortDesc preds).Pairwise pyDescRel) ∧
    pySortDesc [(("a").toList, ("9.0").toList), (("b").toList, ("10.0").toList),
        (("c").toList, ("2.5").toList)] =
      [(("a").toList, ("9.0").toList), (("c").toList, ("2.5").toList),
       (("b").toList, ("10.0").toList)] := by
  refine ⟨fun preds => ⟨List.perm_insertionSort _ _, ?_⟩, by decide⟩
  haveI : IsTotal (Str × Str) pyDescRel := ⟨pyDescRel_total⟩
  haveI : IsTrans (Str × Str) pyDescRel := ⟨pyDescRel_trans⟩
  exact List.sorted_insertionSort _ _

/-- C10: the sort of the accumulated pairs is stable — for every score
text `s`, the pairs carrying `s` appear in the sorted list in exactly their
accumulation (candidate-file) order, and the displayed selection (the
first nine) preserves that relative order as a sublist. The pipeline is a
pure function of the candidate file and the oracle, hence deterministic
for fixed inference responses. -/
theorem claim_C10 (preds : List (Str × Str)) (s : Str) :
    (pySortDesc preds).filter (fun x => decide (x.2 = s)) =
      preds.filter (fun x => decide (x.2 = s)) ∧
    ((displaySelect preds).filter (fun x => decide (x.2 = s))).Sublist
      (preds.filter (fun x => decide (x.2 = s))) := by
  have hpair : (preds.filter (fun x => decide (x.2 = s))).Pairwise pyDescRel := by
    apply List.pairwise_of_forall_mem_list
    intro a ha b hb
    have ha2 : a.2 = s := by simpa using (List.mem_filter.mp ha).2
    have hb2 : b.2 = s := by simpa using (List.mem_filter.mp hb).2
    unfold pyDescRel
    rw [ha2, hb2]
    exact lexLt_irrefl s
  have hsub : (preds.filter (fun x => decide (x.2 = s))).Sublist (pySortDesc preds) :=
    List.sublist_insertionSort hpair (List.filter_sublist preds)
  have hself : (preds.filter (fun x => decide (x.2 = s))).filter
      (fun x => decide (x.2 = s)) = preds.filter (fun x => decide (x.2 = s)) := by
    apply List.filter_eq_self.mpr
    intro a ha
    exact (List.mem_filter.mp ha).2
  have hsub2 : (preds.filter (fun x => decide (x.2 = s))).Sublist
      ((pySortDesc preds).filter (fun x => decide (x.2 = s))) := by
    have h := List.Sublist.filter (fun x => decide (x.2 = s)) hsub
    rwa [hself] at h
  have hlen : ((pySortDesc preds).filter (fun x => decide (x.2 = s))).length =
      (preds.filter (fun x => decide (x.2 = s))).length :=
    (List.Perm.filter _ (List.perm_insertionSort _ _)).length_eq
  have heq : preds.filter (fun x => decide (x.2 = s)) =
      (pySortDesc preds).filter (fun x => decide (x.2 = s)) :=
    hsub2.eq_of_length hlen.symm
  refine ⟨heq.symm, ?_⟩
  have htake : ((displaySelect preds).filter (fun x => decide (x.2 = s))).Sublist
      ((pySortDesc preds).filter (fun x => decide (x.2 = s))) :=
    List.Sublist.filter _ (List.take_sublist 9 (pySortDesc preds))
  rw [← heq] at htake
  exact htake

/-- C4: when the scoring phase succeeds and predictions are shown, the
number of entries selected for display is `min 9 m` where `m` is the
number of examined candidate rows whose user field equals the requested
id, in both routines. -/
theorem claim_C4 :
    (∀ (oracle : Str → Str) (uid : Str) (contents : List Str) (st : LoopState),
        movieScore oracle uid contents = some st →
        (displaySelect st.predictions).length =
          min 9 (((examinedLines contents).filterMap parseMovieLine).filter
            (fun r => decide (r.user = uid))).length) ∧
    (∀ (oracle : Str → Str) (uid : Str) (contents : List Str) (st : LoopState),
        musicScore oracle uid contents = some st →
        (displaySelect st.predictions).length =
          min 9 (((examinedLines contents).filterMap parseMusicLine).filter
            (fun r => decide (r.user = uid))).length) := by
  constructor
  · intro oracle uid contents st h
    obtain ⟨-, -, hpred⟩ := scoreLoop_some parseMovieLine oracle uid _ _ _ h
    unfold displaySelect pySortDesc
    rw [List.length_take, List.length_insertionSort, hpred]
    simp [initState]
  · intro oracle uid contents st h
    obtain ⟨-, -, hpred⟩ := scoreLoop_some parseMusicLine oracle uid _ _ _ h
    unfold displaySelect pySortDesc
    rw [List.length_take, List.length_insertionSort, hpred]
    simp [initState]

/-- Witness for C4: the concrete movie run on `contentsC1` displays
`min 9 2 = 2` entries. -/
theorem claim_C4_witness :
    (displaySelect stC1.predictions).length =
      min 9 (((examinedLines contentsC1).filterMap parseMovieLine).filter
        (fun r => decide (r.user = ("100").toList))).length :=
  claim_C4.1 oracleC1 (("100").toList) contentsC1 stC1 (by decide)

/-- C5: a row is scored — a request issued and an `(item, score)` pair
accumulated — exactly when its user field is string-equal to the requested
id: the requests and predictions are precisely the image of the examined
rows filtered by string equality on the user field, in both routines.
The last conjunct shows there is no numeric coercion: a music row with
user field "0100" is not scored for requested id "100". -/
theorem claim_C5 :
    (∀ (oracle : Str → Str) (uid : Str) (contents : List Str) (st : LoopState),
        movieScore oracle uid contents = some st →
        st.requests = (((examinedLines contents).filterMap parseMovieLine).filter
            (fun r => decide (r.user = uid))).map payloadOf ∧
        st.predictions = (((examinedLines contents).filterMap parseMovieLine).filter
            (fun r => decide (r.user = uid))).map
              (fun r => (r.item, oracle (payloadOf r)))) ∧
    (∀ (oracle : Str → Str) (uid : Str) (contents : List Str) (st : LoopState),
        musicScore oracle uid contents = some st →
        st.requests = (((examinedLines contents).filterMap parseMusicLine).filter
            (fun r => decide (r.user = uid))).map payloadOf ∧
        st.predictions = (((examinedLines contents).filterMap parseMusicLine).filter
            (fun r => decide (r.user = uid))).map
              (fun r => (r.item, oracle (payloadOf r)))) ∧
    musicScore oracleC9 (("100").toList) contentsC5 =
      some ⟨[], [], some (("0100").toList)⟩ := by
  refine ⟨?_, ?_, by decide⟩
  · intro oracle uid contents st h
    obtain ⟨-, hreq, hpred⟩ := scoreLoop_some parseMovieLine oracle uid _ _ _ h
    rw [hreq, hpred]
    constructor <;> simp [initState]
  · intro oracle uid contents st h
    obtain ⟨-, hreq, hpred⟩ := scoreLoop_some parseMusicLine oracle uid _ _ _ h
    rw [hreq, hpred]
    constructor <;> simp [initState]

/-- Witness for C5: the concrete movie run on `contentsC1`. -/
theorem claim_C5_witness :
    stC1.requests = (((examinedLines contentsC1).filterMap parseMovieLine).filter
        (fun r => decide (r.user = ("100").toList))).map payloadOf ∧
    stC1.predictions = (((examinedLines contentsC1).filterMap parseMovieLine).filter
        (fun r => decide (r.user = ("100").toList))).map
          (fun r => (r.item, oracleC1 (payloadOf r))) :=
  claim_C5.1 oracleC1 (("100").toList) contentsC1 stC1 (by decide)

/-- C6: a scored row is the comma-split of its line with the leading label
fields removed — two in the movie variant, one in the music variant — and
the next two fields become `user` and `item`. -/
theorem claim_C6 :
    (∀ (line a b u i : Str) (rest : List Str),
        pySplit ',' line = a :: b :: u :: i :: rest →
        parseMovieLine line = some ⟨u, i, u :: i :: rest⟩) ∧
    (∀ (line a u i : Str) (rest : List Str),
        pySplit ',' line = a :: u :: i :: rest →
        parseMusicLine line = some ⟨u, i, u :: i :: rest⟩) := by
  constructor
  · intro line a b u i rest h
    unfold parseMovieLine
    rw [h]
  · intro line a u i rest h
    unfold parseMusicLine
    rw [h]

/-- Witness for C6: the concrete line "5,1,100,1" parses to user "100",
item "1". -/
theorem claim_C6_witness : parseMovieLine lineC1 = some rowC1 := by
  have h := claim_C6.1 lineC1 (("5").toList) (("1").toList) (("100").toList)
    (("1").toList) [] (by decide)
  exact h

/-- C7: for every examined matching row, the payload of the scoring
request is the comma-join of all fields remaining after the label pops
(two labels for movie, one for music) — a list that still contains the
user and item fields — and the `(item, raw score text)` pair is in the
accumulator. -/
theorem claim_C7 :
    (∀ (oracle : Str → Str) (uid : Str) (contents : List Str) (st : LoopState)
        (line : Str) (r : ParsedRow),
        movieScore oracle uid contents = some st →
        line ∈ examinedLines contents →
        parseMovieLine line = some r →
        r.user = uid →
        payloadOf r = pyJoin ',' ((pySplit ',' line).drop 2) ∧
        payloadOf r ∈ st.requests ∧
        (r.item, oracle (payloadOf r)) ∈ st.predictions) ∧
    (∀ (oracle : Str → Str) (uid : Str) (contents : List Str) (st : LoopState)
        (line : Str) (r : ParsedRow),
        musicScore oracle uid contents = some st →
        line ∈ examinedLines contents →
        parseMusicLine line = some r →
        r.user = uid →
        payloadOf r = pyJoin ',' ((pySplit ',' line).drop 1) ∧
        payloadOf r ∈ st.requests ∧
        (r.item, oracle (payloadOf r)) ∈ st.predictions) := by
  constructor
  · intro oracle uid contents st line r h hline hp hu
    obtain ⟨-, hreq, hpred⟩ := scoreLoop_some parseMovieLine oracle uid _ _ _ h
    have hfields := parseMovieLine_fields line r hp
    have hrmem : r ∈ (examinedLines contents).filterMap parseMovieLine :=
      List.mem_filterMap.mpr ⟨line, hline, hp⟩
    have hrfil : r ∈ ((examinedLines contents).filterMap parseMovieLine).filter
        (fun r => decide (r.user = uid)) :=
      List.mem_filter.mpr ⟨hrmem, by simp [hu]⟩
    refine ⟨?_, ?_, ?_⟩
    · unfold payloadOf
      rw [hfields]
    · rw [hreq]
      exact List.mem_append.mpr (Or.inr (List.mem_map.mpr ⟨r, hrfil, rfl⟩))
    · rw [hpred]
      exact List.mem_append.mpr (Or.inr (List.mem_map.mpr ⟨r, hrfil, rfl⟩))
  · intro oracle uid contents st line r h hline hp hu
    obtain ⟨-, hreq, hpred⟩ := scoreLoop_some parseMusicLine oracle uid _ _ _ h
    have hfields := parseMusicLine_fields line r hp
    have hrmem : r ∈ (examinedLines contents).filterMap parseMusicLine :=
      List.mem_filterMap.mpr ⟨line, hline, hp⟩
    have hrfil : r ∈ ((examinedLines contents).filterMap parseMusicLine).filter
        (fun r => decide (r.user = uid)) :=
      List.mem_filter.mpr ⟨hrmem, by simp [hu]⟩
    refine ⟨?_, ?_, ?_⟩
    · unfold payloadOf
      rw [hfields]
    · rw [hreq]
      exact List.mem_append.mpr (Or.inr (List.mem_map.mpr ⟨r, hrfil, rfl⟩))
    · rw [hpred]
      exact List.mem_append.mpr (Or.inr (List.mem_map.mpr ⟨r, hrfil, rfl⟩))

/-- Witness for C7: the first row of `contentsC1` is matching; its payload
"100,1" is the join of the fields after the two label pops, the request
was issued and the pair ("1", "0.9") accumulated. -/
theorem claim_C7_witness :
    payloadOf rowC1 = pyJoin ',' ((pySplit ',' lineC1).drop 2) ∧
    payloadOf rowC1 ∈ stC1.requests ∧
    (rowC1.item, oracleC1 (payloadOf rowC1)) ∈ stC1.predictions :=
  claim_C7.1 oracleC1 (("100").toList) contentsC1 stC1 lineC1 rowC1
    (by decide) (by decide) (by decide) (by decide)

theorem movieFull_some (oracle : Str → Str) (movie_df : List (Int × Str))
    (uid : Str) (contents : List Str) (st : LoopState) (disp : DisplayOutput)
    (h : get_recommendations_for_user oracle movie_df uid true contents =
      some (st, some disp)) :
    movieScore oracle uid contents = some st ∧
      movieDisplay movie_df uid st = some disp := by
  cases hms : movieScore oracle uid contents with
  | none =>
    have hz : get_recommendations_for_user oracle movie_df uid true contents = none := by
      simp [get_recommendations_for_user, hms]
    rw [hz] at h
    exact Option.noConfusion h
  | some st0 =>
    cases hmd : movieDisplay movie_df uid st0 with
    | none =>
      have hz : get_recommendations_for_user oracle movie_df uid true contents = none := by
        simp [get_recommendations_for_user, hms, hmd]
      rw [hz] at h
      exact Option.noConfusion h
    | some disp0 =>
      have hz : get_recommendations_for_user oracle movie_df uid true contents =
          some (st0, some disp0) := by
        simp [get_recommendations_for_user, hms, hmd]
      rw [hz] at h
      injection h with h2
      rw [Prod.mk.injEq] at h2
      obtain ⟨h3, h4⟩ := h2
      injection h4 with h5
      subst h3
      subst h5
      exact ⟨rfl, hmd⟩

theorem musicFull_some {K : Type} [DecidableEq K] (oracle : Str → Str)
    (pyFloat : Str → Option K) (song_df : List (K × Str))
    (uid : Str) (contents : List Str) (st : LoopState) (disp : DisplayOutput)
    (h : get_music_recommendations_for_user oracle pyFloat song_df uid true contents =
      some (st, some disp)) :
    musicScore oracle uid contents = some st ∧
      musicDisplay pyFloat song_df st = some disp := by
  cases hms : musicScore oracle uid contents with
  | none =>
    have hz : get_music_recommendations_for_user oracle pyFloat song_df uid true
        contents = none := by
      simp [get_music_recommendations_for_user, hms]
    rw [hz] at h
    exact Option.noConfusion h
  | some st0 =>
    cases hmd : musicDisplay pyFloat song_df st0 with
    | none =>
      have hz : get_music_recommendations_for_user oracle pyFloat song_df uid true
          contents = none := by
        simp [get_music_recommendations_for_user, hms, hmd]
      rw [hz] at h
      exact Option.noConfusion h
    | some disp0 =>
      have hz : get_music_recommendations_for_user oracle pyFloat song_df uid true
          contents = some (st0, some disp0) := by
        simp [get_music_recommendations_for_user, hms, hmd]
      rw [hz] at h
      injection h with h2
      rw [Prod.mk.injEq] at h2
      obtain ⟨h3, h4⟩ := h2
      injection h4 with h5
      subst h3
      subst h5
      exact ⟨rfl, hmd⟩

/-- C8: title resolution — the metadata lookup returns the title field of
the first row whose key column equals the looked-up key; a miss (or a key
conversion failure) anywhere makes the whole resolution fail (`none`)
rather than skip the item; the movie variant converts `rec[0]` with the
integer parse `pyInt`, while the music variant applies its key conversion
(`float` in the source, an arbitrary conversion here). -/
theorem claim_C8 :
    (∀ (K : Type) [DecidableEq K] (table : List (K × Str)) (key : K),
        metadataLookup table key =
          (table.find? (fun row => decide (row.1 = key))).map Prod.snd) ∧
    (∀ (K : Type) [DecidableEq K] (conv : Str → Option K) (table : List (K × Str))
        (recs : List (Str × Str)) (rec : Str × Str) (key : K),
        rec ∈ recs → conv rec.1 = some key → metadataLookup table key = none →
        resolveTitles conv table recs = none) ∧
    (∀ (movie_df : List (Int × Str)) (uid : Str) (st : LoopState),
        movieDisplay movie_df uid st =
          (resolveTitles pyInt movie_df (displaySelect st.predictions)).map
            (fun titles => ⟨uid, displaySelect st.predictions, titles⟩)) ∧
    (∀ (K : Type) [DecidableEq K] (pyFloat : Str → Option K)
        (song_df : List (K × Str)) (st : LoopState),
        musicDisplay pyFloat song_df st = st.lastUser.bind (fun u =>
          (resolveTitles pyFloat song_df (displaySelect st.predictions)).map
            (fun titles => ⟨u, displaySelect st.predictions, titles⟩))) := by
  refine ⟨?_, ?_, ?_, ?_⟩
  · intro K _ table key
    induction table with
    | nil => rfl
    | cons row rows ih =>
      by_cases h : row.1 = key
      · simp [metadataLookup, List.filter_cons, List.find?_cons, h]
      · simpa [metadataLookup, List.filter_cons, List.find?_cons, h] using ih
  · intro K _ conv table recs rec key
    induction recs with
    | nil =>
      intro hmem _ _
      simp at hmem
    | cons head tail ih =>
      intro hmem hconv hlook
      rcases List.mem_cons.mp hmem with h | h
      · subst h
        simp [resolveTitles, hconv, hlook]
      · have htail := ih h hconv hlook
        cases hch : conv head.1 with
        | none => simp [resolveTitles, hch]
        | some k =>
          cases hlk : metadataLookup table k with
          | none => simp [resolveTitles, hch, hlk]
          | some t => simp [resolveTitles, hch, hlk, htail]
  · intro movie_df uid st
    cases h : resolveTitles pyInt movie_df (displaySelect st.predictions) with
    | none => simp [movieDisplay, h]
    | some titles => simp [movieDisplay, h]
  · intro K _ pyFloat song_df st
    cases hu : st.lastUser with
    | none => simp [musicDisplay, hu]
    | some u =>
      cases h : resolveTitles pyFloat song_df (displaySelect st.predictions) with
      | none => simp [musicDisplay, hu, h]
      | some titles => simp [musicDisplay, hu, h]

/-- Witness for C8: looking up the absent movie id 9 makes the whole
resolution fail. -/
theorem claim_C8_witness :
    resolveTitles pyInt movieDfC1 [((("9").toList), (("0.1").toList))] = none := by
  have h := claim_C8.2.1 Int pyInt movieDfC1 [((("9").toList), (("0.1").toList))]
    ((("9").toList), (("0.1").toList)) 9 (by decide) (by decide) (by decide)
  exact h

/-- C9: the music routine's results header prints the loop variable
`user` — the user field of the last examined candidate row — while the
movie routine always prints the requested id; on `contentsC9`, whose last
examined row belongs to user "200", the music header is "200" although the
requested id is "100". -/
theorem claim_C9 :
    (∀ (K : Type) [DecidableEq K] (oracle : Str → Str) (pyFloat : Str → Option K)
        (song_df : List (K × Str)) (uid : Str) (contents : List Str)
        (st : LoopState) (disp : DisplayOutput),
        get_music_recommendations_for_user oracle pyFloat song_df uid true contents =
          some (st, some disp) →
        ∃ lastLine row, (examinedLines contents).getLast? = some lastLine ∧
          parseMusicLine lastLine = some row ∧ disp.headerUser = row.user) ∧
    (∀ (oracle : Str → Str) (movie_df : List (Int × Str)) (uid : Str)
        (contents : List Str) (st : LoopState) (disp : DisplayOutput),
        get_recommendations_for_user oracle movie_df uid true contents =
          some (st, some disp) →
        disp.headerUser = uid) ∧
    (get_music_recommendations_for_user oracleC9 pyInt songDfC9 (("100").toList)
        true contentsC9 = some (stC9, some dispC9) ∧
      dispC9.headerUser ≠ ("100").toList) := by
  refine ⟨?_, ?_, by decide⟩
  · intro K _ oracle pyFloat song_df uid contents st disp h
    obtain ⟨hms, hmd⟩ := musicFull_some oracle pyFloat song_df uid contents st disp h
    cases hlu : st.lastUser with
    | none =>
      have hz : musicDisplay pyFloat song_df st = none := by
        simp [musicDisplay, hlu]
      rw [hz] at hmd
      exact Option.noConfusion hmd
    | some u =>
      cases hrt : resolveTitles pyFloat song_df (displaySelect st.predictions) with
      | none =>
        have hz : musicDisplay pyFloat song_df st = none := by
          simp [musicDisplay, hlu, hrt]
        rw [hz] at hmd
        exact Option.noConfusion hmd
      | some titles =>
        have hz : musicDisplay pyFloat song_df st =
            some ⟨u, displaySelect st.predictions, titles⟩ := by
          simp [musicDisplay, hlu, hrt]
        rw [hz] at hmd
        injection hmd with h5
        have hms' : scoreLoop parseMusicLine oracle uid initState
            (examinedLines contents) = some st := hms
        have hne : examinedLines contents ≠ [] := by
          intro hnil
          rw [hnil] at hms'
          simp only [scoreLoop] at hms'
          injection hms' with h4
          rw [← h4] at hlu
          exact Option.noConfusion hlu
        obtain ⟨ll, row, hgl, hp, huser⟩ :=
          scoreLoop_lastUser parseMusicLine oracle uid _ _ _ hne hms'
        rw [hlu] at huser
        injection huser with h6
        refine ⟨ll, row, hgl, hp, ?_⟩
        rw [← h5]
        exact h6
  · intro oracle movie_df uid contents st disp h
    obtain ⟨-, hmd⟩ := movieFull_some oracle movie_df uid contents st disp h
    cases hrt : resolveTitles pyInt movie_df (displaySelect st.predictions) with
    | none =>
      have hz : movieDisplay movie_df uid st = none := by
        simp [movieDisplay, hrt]
      rw [hz] at hmd
      exact Option.noConfusion hmd
    | some titles =>
      have hz : movieDisplay movie_df uid st =
          some ⟨uid, displaySelect st.predictions, titles⟩ := by
        simp [movieDisplay, hrt]
      rw [hz] at hmd
      injection hmd with h5
      rw [← h5]

/-- Witness for C9: on the concrete music run over `contentsC9` the header
equals the user field of the last examined row. -/
theorem claim_C9_witness :
    ∃ lastLine row, (examinedLines contentsC9).getLast? = some lastLine ∧
      parseMusicLine lastLine = some row ∧ dispC9.headerUser = row.user :=
  claim_C9.1 Int oracleC9 pyInt songDfC9 (("100").toList) contentsC9 stC9 dispC9
    (by decide)

/-- C1 counterexample: on a candidate file consisting of exactly the 3
rows for user "100" (items "1", "2", "3" scoring "0.9", "0.5", "0.7"), the
pipeline returns only two ranked items — "1" ("0.9") then "2" ("0.5") —
because the third (last) line is never scored; the claimed three-item
ranking does not appear. -/
theorem claim_C1_counterexample :
    (get_recommendations_for_user oracleC1 movieDfC1 (("100").toList) true
        contentsC1).map (fun p => p.2.map (fun d => d.recommendations)) =
      some (some twoC1) ∧
    twoC1 ≠ claimedC1 := by decide

/-- C1 amended: when the 3 rows for user "100" are followed by one
trailing line (the final line, which is never scored), the pipeline ranks
item "1" ("0.9"), then "3" ("0.7"), then "2" ("0.5"), and all 3 items
survive truncation to the top 9. -/
theorem claim_C1_amended :
    (get_recommendations_for_user oracleC1 movieDfC1 (("100").toList) true
        (contentsC1 ++ [[]])).map (fun p => p.2.map (fun d => d.recommendations)) =
      some (some claimedC1) ∧
    claimedC1.length = 3 := by decide

end MME
